import Mathlib

/-
  Verification of the dex-bot order-lifecycle reconciliation engine.

  The development shallowly embeds the grid strategy (gridbot), the spike
  strategy (spikebot) and the tracked-order store (strategies/base) in Lean.
  Exchange amounts are modelled as rationals; the BigNumber.js decimal
  arithmetic used by the source (`toFixed` with ROUND_HALF_UP) is modelled
  exactly by half-away-from-zero rounding on the decimal grid.
-/

namespace DexBot

/-- ORDERSIDES from core/constants: BUY and SELL. -/
inductive OrderSide where
  | buy
  | sell
deriving DecidableEq, Repr

/-- TradeOrder from interfaces: a desired order. -/
structure TradeOrder where
  orderSide : OrderSide
  price : ℚ
  quantity : ℚ
  marketSymbol : String
deriving DecidableEq, Repr

/-- TrackedOrder from interfaces: a TradeOrder plus optional on-chain id
and placement timestamp. -/
structure TrackedOrder extends TradeOrder where
  orderId : Option String
  placedAt : Option String
deriving DecidableEq, Repr

/-- An exchange-reported open order (fields used by the strategies:
order_id, order_side, price, quantity_curr). -/
structure OpenOrder where
  order_id : String
  order_side : OrderSide
  price : ℚ
  quantity_curr : ℚ
deriving DecidableEq, Repr

/-- Round half away from zero to an integer: BigNumber.js ROUND_HALF_UP,
the default rounding mode used by toFixed. -/
def roundHalfUp (x : ℚ) : ℤ :=
  if 0 ≤ x then ⌊x + 1 / 2⌋ else -⌊-x + 1 / 2⌋

/-- BigNumber.prototype.toFixed d : decimal rounding of x to d decimal
digits (half away from zero). -/
def toFixed (d : ℕ) (x : ℚ) : ℚ :=
  (roundHalfUp (x * 10 ^ d) : ℚ) / 10 ^ d

/-- getQuantityAndAdjustedTotal (gridbot.ts / spikebot.ts):
adjustedTotal = (totalCost * price).toFixed(askPrecision),
quantity = (adjustedTotal / price).toFixed(bidPrecision).
Returns (quantity, adjustedTotal). -/
def getQuantityAndAdjustedTotal (price totalCost : ℚ)
    (bidPrecision askPrecision : ℕ) : ℚ × ℚ :=
  let adjustedTotal := toFixed askPrecision (totalCost * price)
  let quantity := toFixed bidPrecision (adjustedTotal / price)
  (quantity, adjustedTotal)

/-- Spec-side notion ("rounded to d decimal digits, in decimal
arithmetic"): y lies on the decimal grid of step 10 ^ (-d) and is within
half a step of x. -/
def isDecimalRound (d : ℕ) (x y : ℚ) : Prop :=
  (∃ n : ℤ, y = (n : ℚ) / 10 ^ d) ∧ |y - x| ≤ 1 / (2 * 10 ^ d)

theorem roundHalfUp_abs_le (x : ℚ) : |(roundHalfUp x : ℚ) - x| ≤ 1 / 2 := by
  unfold roundHalfUp
  rcases le_or_lt 0 x with h | h
  · rw [if_pos h]
    rw [abs_le]
    constructor
    · have := Int.lt_floor_add_one (x + 1 / 2)
      push_cast at this ⊢
      linarith
    · have := Int.floor_le (x + 1 / 2)
      push_cast at this ⊢
      linarith
  · rw [if_neg (not_le.mpr h)]
    rw [abs_le]
    push_cast
    constructor
    · have := Int.floor_le (-x + 1 / 2)
      push_cast at this
      linarith
    · have := Int.lt_floor_add_one (-x + 1 / 2)
      push_cast at this
      linarith

theorem toFixed_sub_abs_le (d : ℕ) (x : ℚ) :
    |toFixed d x - x| ≤ 1 / (2 * 10 ^ d) := by
  unfold toFixed
  have hpow : (0 : ℚ) < 10 ^ d := by positivity
  have h := roundHalfUp_abs_le (x * 10 ^ d)
  have hrw : (roundHalfUp (x * 10 ^ d) : ℚ) / 10 ^ d - x
      = ((roundHalfUp (x * 10 ^ d) : ℚ) - x * 10 ^ d) / 10 ^ d := by
    field_simp
    ring
  rw [hrw, abs_div, abs_of_pos hpow, div_le_div_iff hpow (by positivity)]
  calc |(roundHalfUp (x * 10 ^ d) : ℚ) - x * 10 ^ d| * (2 * 10 ^ d)
      ≤ (1 / 2) * (2 * 10 ^ d) := by
        apply mul_le_mul_of_nonneg_right h (by positivity)
    _ = 1 * 10 ^ d := by ring

theorem toFixed_isDecimalRound (d : ℕ) (x : ℚ) :
    isDecimalRound d x (toFixed d x) :=
  ⟨⟨roundHalfUp (x * 10 ^ d), rfl⟩, toFixed_sub_abs_le d x⟩

/-! ## Grid strategy: initial ladder placement (gridbot.ts, trade(), first branch) -/

/-- Per-pair configuration and market inputs consumed by one grid
trade() iteration: pair config (upperLimit, lowerLimit, gridLevels,
bidAmountPerLevel), token precisions and codes from the market record,
and the latest traded price. -/
structure GridParams where
  upperLimit : ℚ
  lowerLimit : ℚ
  gridLevels : ℕ
  bidAmountPerLevel : ℚ
  bidPrecision : ℕ
  askPrecision : ℕ
  marketPrice : ℚ
  marketSymbol : String
  bidTokenCode : String
  askTokenCode : String

namespace GridParams

/-- lastSalePrice = new BN(marketDetails.price).toFixed(askPrecision). -/
def lastSalePrice (g : GridParams) : ℚ := toFixed g.askPrecision g.marketPrice

/-- upperLimit = new BN(pair.upperLimit * 10 ** bidPrecision). -/
def upperScaled (g : GridParams) : ℚ := g.upperLimit * 10 ^ g.bidPrecision

/-- lowerLimit = new BN(pair.lowerLimit * 10 ** bidPrecision). -/
def lowerScaled (g : GridParams) : ℚ := g.lowerLimit * 10 ^ g.bidPrecision

/-- gridSize = upperLimit.minus(lowerLimit).dividedBy(gridLevels). -/
def gridSize (g : GridParams) : ℚ := (g.upperScaled - g.lowerScaled) / g.gridLevels

/-- gridPrice = gridSize.dividedBy(10 ** bidPrecision).toFixed(askPrecision). -/
def gridPrice (g : GridParams) : ℚ :=
  toFixed g.askPrecision (g.gridSize / 10 ^ g.bidPrecision)

/-- priceTraded = new BN(lastSalePrice).times(10 ** bidPrecision). -/
def priceTraded (g : GridParams) : ℚ := g.lastSalePrice * 10 ^ g.bidPrecision

/-- index starts at 1 when upperLimit.isLessThanOrEqualTo(priceTraded) and
lowerLimit.isLessThanOrEqualTo(priceTraded); otherwise 0. -/
def startIndex (g : GridParams) : ℕ :=
  if g.upperScaled ≤ g.priceTraded ∧ g.lowerScaled ≤ g.priceTraded then 1 else 0

/-- maxGrids = gridLevels, decremented when
upperLimit.isGreaterThanOrEqualTo(priceTraded) and
lowerLimit.isGreaterThanOrEqualTo(priceTraded). -/
def maxGrids (g : GridParams) : ℕ :=
  if g.priceTraded ≤ g.upperScaled ∧ g.priceTraded ≤ g.lowerScaled then
    g.gridLevels - 1
  else g.gridLevels

/-- price = upperLimit.minus(gridSize.multipliedBy(index))
  .dividedBy(10 ** bidPrecision).toFixed(askPrecision). -/
def levelPrice (g : GridParams) (idx : ℕ) : ℚ :=
  toFixed g.askPrecision ((g.upperScaled - g.gridSize * idx) / 10 ^ g.bidPrecision)

/-- The loop indices: for (; index <= maxGrids; index += 1). -/
def candidateIndices (g : GridParams) : List ℕ :=
  List.range' g.startIndex (g.maxGrids + 1 - g.startIndex)

/-- Loop body for one grid level: the anti-self-cross filter
(|price - lastSalePrice| >= gridPrice / 2), then SELL if price above the
last sale price (quantity sized by quantity), BUY if below (quantity sized
by adjustedTotal); a level exactly at the last sale price is dropped. -/
def levelOrder (g : GridParams) (idx : ℕ) : Option TradeOrder :=
  let price := g.levelPrice idx
  let qa := getQuantityAndAdjustedTotal price g.bidAmountPerLevel
      g.bidPrecision g.askPrecision
  if g.gridPrice / 2 ≤ |price - g.lastSalePrice| then
    if 0 < price - g.lastSalePrice then
      some ⟨OrderSide.sell, price, qa.1, g.marketSymbol⟩
    else if 0 < g.lastSalePrice - price then
      some ⟨OrderSide.buy, price, qa.2, g.marketSymbol⟩
    else none
  else none

/-- The candidate order list accumulated into this.oldOrders[i] by the
placement loop. -/
def gridCandidates (g : GridParams) : List TradeOrder :=
  g.candidateIndices.filterMap g.levelOrder

/-- sellTotal = new BN(sellToken).toFixed(bidPrecision): requested SELL
quantity summed over the candidate SELL orders. -/
def gridSellTotal (g : GridParams) : ℚ :=
  toFixed g.bidPrecision
    (((g.gridCandidates.filter (fun o => o.orderSide == OrderSide.sell)).map
      (fun o => o.quantity)).sum)

/-- buyTotal = new BN(buyToken).toFixed(askPrecision): requested BUY spend
summed over the candidate BUY orders. -/
def gridBuyTotal (g : GridParams) : ℚ :=
  toFixed g.askPrecision
    (((g.gridCandidates.filter (fun o => o.orderSide == OrderSide.buy)).map
      (fun o => o.quantity)).sum)

end GridParams

/-- Payload of the events.balanceLow call: requested and available amounts
for both sides, plus the market tag. -/
structure BalanceLowEvent where
  market : String
  sellRequired : ℚ
  sellAvailable : ℚ
  buyRequired : ℚ
  buyAvailable : ℚ
deriving DecidableEq, Repr

/-- Outcome of one initial-placement branch run: continue on zero
gridLevels, abort with a balance-low event, skip submission when the
candidate list outgrew maxGrids, or submit the whole candidate batch. -/
inductive GridInitOutcome where
  | noLevels
  | lowBalance (ev : BalanceLowEvent)
  | tooManyOrders (candidates : List TradeOrder)
  | placed (orders : List TradeOrder)
deriving DecidableEq, Repr

/-- The initial-placement branch of GridBotStrategy.trade() for one pair:
build the candidate ladder, compare requested totals against fetched
balances (numeric values), and either abort with a balance-low event or
submit the batch when its size does not exceed maxGrids. -/
def gridInitialPlacement (g : GridParams) (sellBalances buyBalances : ℚ) :
    GridInitOutcome :=
  if g.gridLevels = 0 then GridInitOutcome.noLevels
  else if sellBalances < g.gridSellTotal ∨ buyBalances < g.gridBuyTotal then
    GridInitOutcome.lowBalance
      ⟨g.bidTokenCode ++ "-" ++ g.askTokenCode,
        g.gridSellTotal, sellBalances, g.gridBuyTotal, buyBalances⟩
  else if g.gridCandidates.length ≤ g.maxGrids then
    GridInitOutcome.placed g.gridCandidates
  else GridInitOutcome.tooManyOrders g.gridCandidates

/-- Orders actually handed to placeOrders by the initial-placement branch. -/
def submittedOrders : GridInitOutcome → List TradeOrder
  | GridInitOutcome.placed os => os
  | _ => []

/-! ## Grid strategy: fill detection and counter-order synthesis
(gridbot.ts trade(), second branch). The repository carries two copies of
the grid engine; they differ only in how the counter BUY is sized, so the
shared parts are defined once and the sizing is a parameter. -/

/-- Inputs of the fill-detection branch that stay fixed across the loop. -/
structure GridFillConfig where
  gridPlacement : Bool
  gridPrice : ℚ
  bidAmountPerLevel : ℚ
  bidPrecision : ℕ
  askPrecision : ℕ
  marketSymbol : String

/-- getHighestBid: sort the BUY orders by price descending and take the
first, i.e. the maximal BUY price; null when no BUY order exists. -/
def getHighestBid (orders : List TradeOrder) : Option ℚ :=
  ((orders.filter (fun o => o.orderSide == OrderSide.buy)).map
    (fun o => o.price)).max?

/-- getLowestAsk: sort the SELL orders by price ascending and take the
first, i.e. the minimal SELL price; null when no SELL order exists. -/
def getLowestAsk (orders : List TradeOrder) : Option ℚ :=
  ((orders.filter (fun o => o.orderSide == OrderSide.sell)).map
    (fun o => o.price)).min?

/-- Price of the counter SELL for an executed BUY:
filled.price + gridPrice when there is no lowest ask or
config.gridPlacement is set, else lowestAsk - gridPrice, re-fixed to ask
precision. -/
def counterSellPrice (cfg : GridFillConfig) (currentOrders : List TradeOrder)
    (filledPrice : ℚ) : ℚ :=
  match getLowestAsk currentOrders with
  | none => toFixed cfg.askPrecision (filledPrice + cfg.gridPrice)
  | some lowestAsk =>
    if cfg.gridPlacement then toFixed cfg.askPrecision (filledPrice + cfg.gridPrice)
    else toFixed cfg.askPrecision (lowestAsk - cfg.gridPrice)

/-- Price of the counter BUY for an executed SELL:
filled.price - gridPrice when there is no highest bid or
config.gridPlacement is set, else highestBid + gridPrice, re-fixed to ask
precision. -/
def counterBuyPrice (cfg : GridFillConfig) (currentOrders : List TradeOrder)
    (filledPrice : ℚ) : ℚ :=
  match getHighestBid currentOrders with
  | none => toFixed cfg.askPrecision (filledPrice - cfg.gridPrice)
  | some highestBid =>
    if cfg.gridPlacement then toFixed cfg.askPrecision (filledPrice - cfg.gridPrice)
    else toFixed cfg.askPrecision (highestBid + cfg.gridPrice)

/-- Spread-adaptive sizing of the variant grid engine
(gridbot-split-return-preference copy): percent spread
gridPrice / filledPrice * 100, purchase spread (spread - 0.1) / 2 + 0.1,
and that percentage of bidAmountPerLevel added on top of it. -/
def adjustedBidAmountPerLevel (cfg : GridFillConfig) (filledPrice : ℚ) : ℚ :=
  let calculatedTotalPercentSpread := cfg.gridPrice / filledPrice * 100
  let calculatedPurchaseSpread := (calculatedTotalPercentSpread - 1 / 10) / 2 + 1 / 10
  let calculatedDifference := cfg.bidAmountPerLevel * (calculatedPurchaseSpread / 100)
  cfg.bidAmountPerLevel + calculatedDifference

/-- The counter order synthesized for a filled tracked order. The
`variant` flag selects the spread-adjusted BUY sizing of the second grid
engine copy; the primary engine sizes from the raw bidAmountPerLevel. -/
def counterOrderFor (variant : Bool) (cfg : GridFillConfig)
    (currentOrders : List TradeOrder) (t : TradeOrder) : TradeOrder :=
  match t.orderSide with
  | OrderSide.buy =>
    let sellPrice := counterSellPrice cfg currentOrders t.price
    ⟨OrderSide.sell, sellPrice,
      (getQuantityAndAdjustedTotal sellPrice cfg.bidAmountPerLevel
        cfg.bidPrecision cfg.askPrecision).1, cfg.marketSymbol⟩
  | OrderSide.sell =>
    let buyPrice := counterBuyPrice cfg currentOrders t.price
    let amount := if variant then adjustedBidAmountPerLevel cfg t.price
      else cfg.bidAmountPerLevel
    ⟨OrderSide.buy, buyPrice,
      (getQuantityAndAdjustedTotal buyPrice amount
        cfg.bidPrecision cfg.askPrecision).2, cfg.marketSymbol⟩

/-- Working state of the fill-detection loop: the evolving currentOrders
set, the synthesized counters (latestOrders) and the tracked orders for
which an orderFilled event has been emitted, each in loop order. -/
structure GridFillResult where
  currentOrders : List TradeOrder
  latestOrders : List TradeOrder
  filled : List TradeOrder
deriving DecidableEq, Repr

/-- One iteration over a tracked order: openOrders.find matches by price
alone; a match leaves the state untouched, otherwise an orderFilled event
is emitted and the counter is pushed into both latestOrders and
currentOrders. -/
def gridFillStep (variant : Bool) (cfg : GridFillConfig)
    (openOrders : List OpenOrder) (st : GridFillResult) (t : TradeOrder) :
    GridFillResult :=
  if openOrders.any (fun o => o.price == t.price) then st
  else
    let counter := counterOrderFor variant cfg st.currentOrders t
    ⟨st.currentOrders ++ [counter], st.latestOrders ++ [counter],
      st.filled ++ [t]⟩

/-- currentOrders as initialized from the exchange-reported open orders. -/
def currentOrdersInit (cfg : GridFillConfig) (openOrders : List OpenOrder) :
    List TradeOrder :=
  openOrders.map (fun o => ⟨o.order_side, o.price, o.quantity_curr, cfg.marketSymbol⟩)

/-- The whole fill-detection pass over this.oldOrders[i]. -/
def gridFillDetection (variant : Bool) (cfg : GridFillConfig)
    (openOrders : List OpenOrder) (oldOrders : List TradeOrder) :
    GridFillResult :=
  oldOrders.foldl (gridFillStep variant cfg openOrders)
    ⟨currentOrdersInit cfg openOrders, [], []⟩

/-- One reconciliation poll of the tracked state, with the branch guards
of trade(): fill detection runs only when tracked orders exist and
0 < openOrders.length < gridLevels, and then replaces the tracked state
with the working set; otherwise (initial placement aside) the tracked
state is untouched and nothing is synthesized. Returns (new tracked
state, submitted counters, filled orders reported by events). -/
def gridReconcilePass (variant : Bool) (cfg : GridFillConfig)
    (gridLevels : ℕ) (oldOrders : List TradeOrder)
    (openOrders : List OpenOrder) :
    List TradeOrder × List TradeOrder × List TradeOrder :=
  if oldOrders.length ≠ 0 ∧ 0 < openOrders.length ∧ openOrders.length < gridLevels
  then
    let r := gridFillDetection variant cfg openOrders oldOrders
    (r.currentOrders, r.latestOrders, r.filled)
  else (oldOrders, [], [])

/-! ## Spike strategy (spikebot.ts) -/

/-- calculateMA: arithmetic mean of the rolling window. -/
def calculateMA (prices : List ℚ) : ℚ := prices.sum / prices.length

/-- priceHistory.push(latestPrice) followed by a shift() of the oldest
entry when the window exceeds maWindow. -/
def pushPrice (maWindow : ℕ) (hist : List ℚ) (p : ℚ) : List ℚ :=
  let h := hist ++ [p]
  if maWindow < h.length then h.tail else h

/-- Fill-detection matching of the spike engine: the on-chain order id
when the tracked order has one, an exact (price, side) match otherwise. -/
def stillOpen (openOrders : List OpenOrder) (t : TrackedOrder) : Bool :=
  match t.orderId with
  | some id => openOrders.any (fun o => o.order_id == id)
  | none =>
    openOrders.any (fun o => o.price == t.price && o.order_side == t.orderSide)

/-- buildTakeProfitOrder: the counter placed at the moving average, on the
side opposite to the filled spike order, sized from the pair's fixed
order amount via the decimal helper. -/
def buildTakeProfitOrder (symbol : String) (ma : ℚ) (filledSide : OrderSide)
    (orderAmount : ℚ) (bidPrecision askPrecision : ℕ) : TradeOrder :=
  let maPrice := toFixed askPrecision ma
  match filledSide with
  | OrderSide.buy =>
    ⟨OrderSide.sell, maPrice,
      (getQuantityAndAdjustedTotal maPrice orderAmount bidPrecision askPrecision).1,
      symbol⟩
  | OrderSide.sell =>
    ⟨OrderSide.buy, maPrice,
      (getQuantityAndAdjustedTotal maPrice orderAmount bidPrecision askPrecision).2,
      symbol⟩

/-- resolveOrderIds (base.ts): each just-placed order gets the order_id of
an on-chain open order matching it by (price, side), and a placement
timestamp. -/
def resolveOrderIds (onChainOrders : List OpenOrder)
    (placedOrders : List TradeOrder) (ts : String) : List TrackedOrder :=
  placedOrders.map (fun placed =>
    let matched := onChainOrders.find? (fun o =>
      o.price == placed.price && o.order_side == placed.orderSide)
    ⟨placed, matched.map (fun o => o.order_id), some ts⟩)

/-- Result of the spike fill-detection steps 4 and 5 of one poll. Each
element of spikeFilled and takeProfitFilled corresponds to one emitted
orderFilled event. -/
structure SpikePassResult where
  remainingSpike : List TrackedOrder
  newTakeProfit : List TradeOrder
  remainingTakeProfit : List TrackedOrder
  spikeFilled : List TrackedOrder
  takeProfitFilled : List TrackedOrder
deriving DecidableEq, Repr

/-- Spike fill detection (steps 4 and 5 of trade()): tracked spike orders
missing from the live list are reported filled and answered by a
take-profit counter at the current MA; the counters are submitted,
resolved against a fresh open-order fetch (postPlacementOrders) and
appended to the take-profit collection, which is then itself checked
against the same stale openOrders list. -/
def spikeFillPass (openOrders postPlacementOrders : List OpenOrder)
    (ma : ℚ) (symbol : String) (orderAmount : ℚ)
    (bidPrecision askPrecision : ℕ) (ts : String)
    (spikeOrders takeProfitOrders : List TrackedOrder) : SpikePassResult :=
  let remainingSpike := spikeOrders.filter (stillOpen openOrders)
  let filledSpike := spikeOrders.filter (fun t => !(stillOpen openOrders t))
  let newTP := filledSpike.map (fun t =>
    buildTakeProfitOrder symbol ma t.orderSide orderAmount bidPrecision askPrecision)
  let tpAfterPlacement :=
    if newTP.isEmpty then takeProfitOrders
    else takeProfitOrders ++ resolveOrderIds postPlacementOrders newTP ts
  let remainingTP := tpAfterPlacement.filter (stillOpen openOrders)
  let filledTP := tpAfterPlacement.filter (fun t => !(stillOpen openOrders t))
  ⟨remainingSpike, newTP, remainingTP, filledSpike, filledTP⟩

/-- Per-pair spike configuration (deviationPct, levels, orderAmount). -/
structure SpikePairConfig where
  symbol : String
  deviationPct : ℚ
  levels : ℕ
  orderAmount : ℚ

/-- buildSpikeOrders: for each level 1..levels a BUY at
MA * (1 - deviationPct * level / 100) and a SELL at
MA * (1 + deviationPct * level / 100), each price fixed to the ask
precision and sized via the decimal helper. -/
def buildSpikeOrders (cfg : SpikePairConfig) (ma : ℚ)
    (bidPrecision askPrecision : ℕ) : List TradeOrder :=
  (List.range cfg.levels).flatMap (fun l =>
    let level : ℚ := (l : ℚ) + 1
    let deviation := cfg.deviationPct * level / 100
    let buyPrice := toFixed askPrecision (ma * (1 - deviation))
    let sellPrice := toFixed askPrecision (ma * (1 + deviation))
    [⟨OrderSide.buy, buyPrice,
        (getQuantityAndAdjustedTotal buyPrice cfg.orderAmount
          bidPrecision askPrecision).2, cfg.symbol⟩,
     ⟨OrderSide.sell, sellPrice,
        (getQuantityAndAdjustedTotal sellPrice cfg.orderAmount
          bidPrecision askPrecision).1, cfg.symbol⟩])

/-- One poll of a fresh spike pair (no tracked orders, no resting on-chain
orders): push the price into the window, skip while the window is still
filling, otherwise place the ladder returned by buildSpikeOrders around
the window mean. Returns the new window and the submitted orders. -/
def spikePollPlacement (maWindow : ℕ) (cfg : SpikePairConfig)
    (bidPrecision askPrecision : ℕ) (hist : List ℚ) (price : ℚ) :
    List ℚ × List TradeOrder :=
  if (pushPrice maWindow hist price).length < maWindow then
    (pushPrice maWindow hist price, [])
  else
    (pushPrice maWindow hist price,
      buildSpikeOrders cfg (calculateMA (pushPrice maWindow hist price))
        bidPrecision askPrecision)

/-- Iterated polls of a fresh spike pair over an incoming price feed:
the list of order batches submitted at each successive poll. -/
def runSpikeWarmup (maWindow : ℕ) (cfg : SpikePairConfig)
    (bidPrecision askPrecision : ℕ) (hist : List ℚ) :
    List ℚ → List (List TradeOrder)
  | [] => []
  | p :: ps =>
    (spikePollPlacement maWindow cfg bidPrecision askPrecision hist p).2
      :: runSpikeWarmup maWindow cfg bidPrecision askPrecision
          (spikePollPlacement maWindow cfg bidPrecision askPrecision hist p).1 ps

/-! ## Tracked-order store (base.ts saveTrackedOrders / loadTrackedOrders).
JSON values are modelled structurally; the record file is modelled as
missing, present-but-unparseable, or a parsed JSON value. -/

inductive Json where
  | null
  | bool (b : Bool)
  | num (q : ℚ)
  | str (s : String)
  | arr (elems : List Json)
  | obj (fields : List (String × Json))

/-- Field lookup on a JSON object; anything else has no fields. -/
def Json.getField : Json → String → Option Json
  | Json.obj fields, k => (fields.find? (fun f => f.1 == k)).map (fun f => f.2)
  | _, _ => none

/-- Numeric ORDERSIDES value used on the wire (BUY = 1, SELL = 2). -/
def OrderSide.toNum : OrderSide → ℚ
  | OrderSide.buy => 1
  | OrderSide.sell => 2

/-- JSON.stringify of a TrackedOrder: the TradeOrder fields plus orderId
and placedAt when present (undefined fields are dropped by stringify). -/
def encodeTrackedOrder (t : TrackedOrder) : Json :=
  Json.obj
    ([("orderSide", Json.num t.orderSide.toNum),
      ("price", Json.num t.price),
      ("quantity", Json.num t.quantity),
      ("marketSymbol", Json.str t.marketSymbol)]
    ++ (match t.orderId with
        | some id => [("orderId", Json.str id)]
        | none => [])
    ++ (match t.placedAt with
        | some ts => [("placedAt", Json.str ts)]
        | none => []))

/-- Reading a TrackedOrder back out of a parsed JSON object (the shape
the engine relies on after its `as TrackedOrder[]` cast). -/
def decodeTrackedOrder (j : Json) : Option TrackedOrder :=
  match j.getField "orderSide", j.getField "price",
      j.getField "quantity", j.getField "marketSymbol" with
  | some (Json.num s), some (Json.num p), some (Json.num q),
      some (Json.str sym) =>
    (if s = 1 then some OrderSide.buy
     else if s = 2 then some OrderSide.sell else none).map
      (fun side =>
        ⟨⟨side, p, q, sym⟩,
          (match j.getField "orderId" with
           | some (Json.str id) => some id
           | _ => none),
          (match j.getField "placedAt" with
           | some (Json.str ts) => some ts
           | _ => none)⟩)
  | _, _, _, _ => none

/-- The serialized record: instance id, strategy key, timestamp and the
orders array. -/
def saveTrackedOrdersRecord (instanceId key ts : String)
    (orders : List TrackedOrder) : Json :=
  Json.obj
    [("instanceId", Json.str instanceId), ("key", Json.str key),
     ("timestamp", Json.str ts),
     ("orders", Json.arr (orders.map encodeTrackedOrder))]

/-- State of the record file: missing, unparseable, or parsed JSON. -/
def RecordFile : Type := Option (Option Json)

/-- saveTrackedOrders: a silent no-op when ORDER_STATE_DIR or
DASHBOARD_INSTANCE_ID is absent, otherwise the record replaces the file
contents atomically (write-temp-then-rename). -/
def saveTrackedOrders (stateDir instanceId : Option String) (key ts : String)
    (orders : List TrackedOrder) (file : RecordFile) : RecordFile :=
  match stateDir, instanceId with
  | some _, some iid => some (some (saveTrackedOrdersRecord iid key ts orders))
  | _, _ => file

/-- loadTrackedOrders: empty when configuration is absent, the file is
missing, its contents do not parse as JSON, or the parsed value has no
orders array; otherwise the elements of the orders array (returned as
parsed JSON values, matching the engine's unvalidated cast). -/
def loadTrackedOrders (stateDir instanceId : Option String)
    (file : RecordFile) : List Json :=
  match stateDir, instanceId with
  | some _, some _ =>
    match file with
    | some (some j) =>
      match j.getField "orders" with
      | some (Json.arr orders) => orders
      | _ => []
    | _ => []
  | _, _ => []

/-! ## Theorems -/

theorem buy_ne_sell : OrderSide.buy ≠ OrderSide.sell := fun h => by cases h

theorem sell_ne_buy : OrderSide.sell ≠ OrderSide.buy := fun h => by cases h

/-- Claim C3: for every nonzero price p, total cost T and precisions in
[0, 18], getQuantityAndAdjustedTotal returns adjustedTotal equal to T * p
rounded (in decimal arithmetic) to askPrecision digits, and quantity equal
to adjustedTotal / p rounded to bidPrecision digits. -/
theorem claim_C3_quantityAndAdjustedTotal (price totalCost : ℚ)
    (bidPrecision askPrecision : ℕ) (hp : price ≠ 0)
    (hb : bidPrecision ≤ 18) (ha : askPrecision ≤ 18) :
    isDecimalRound askPrecision (totalCost * price)
      (getQuantityAndAdjustedTotal price totalCost bidPrecision askPrecision).2 ∧
    isDecimalRound bidPrecision
      ((getQuantityAndAdjustedTotal price totalCost bidPrecision askPrecision).2
        / price)
      (getQuantityAndAdjustedTotal price totalCost bidPrecision askPrecision).1 := by
  refine ⟨?_, ?_⟩ <;>
    simpa [getQuantityAndAdjustedTotal] using toFixed_isDecimalRound _ _

theorem claim_C3_witness :
    (2 : ℚ) ≠ 0 ∧ (0 : ℕ) ≤ 18 ∧ (2 : ℕ) ≤ 18 ∧
    (isDecimalRound 2 ((6 / 5 : ℚ) * 2)
      (getQuantityAndAdjustedTotal 2 (6 / 5) 0 2).2 ∧
    isDecimalRound 0
      ((getQuantityAndAdjustedTotal 2 (6 / 5) 0 2).2 / 2)
      (getQuantityAndAdjustedTotal 2 (6 / 5) 0 2).1) :=
  ⟨by norm_num, by norm_num, by norm_num,
    claim_C3_quantityAndAdjustedTotal 2 (6 / 5) 0 2 (by norm_num)
      (by norm_num) (by norm_num)⟩

/-- Claim C10 (counterexample to the original bound): at price = 2,
totalCost = 6 / 5, bidPrecision = 0, askPrecision = 2, the helper returns
quantity = 1 and adjustedTotal = 2.4, and round(quantity * price, 2) = 2
differs from adjustedTotal by 0.4, which exceeds one increment 10 ^ (-2). -/
theorem claim_C10_counterexample :
    (2 : ℚ) ≠ 0 ∧
    (getQuantityAndAdjustedTotal 2 (6 / 5) 0 2).1 = 1 ∧
    (getQuantityAndAdjustedTotal 2 (6 / 5) 0 2).2 = 12 / 5 ∧
    ¬ (|toFixed 2 ((getQuantityAndAdjustedTotal 2 (6 / 5) 0 2).1 * 2)
        - (getQuantityAndAdjustedTotal 2 (6 / 5) 0 2).2| ≤ 1 / 10 ^ (2 : ℕ)) := by
  norm_num [getQuantityAndAdjustedTotal, toFixed, roundHalfUp, abs_sub_lt_iff,
    abs_of_nonneg]

/-- Claim C10 (amended): for every nonzero price, the round-trip error
|round(quantity * price, askPrecision) - adjustedTotal| is bounded by half
an increment at askPrecision plus |price| times half an increment at
bidPrecision (the price-independent one-increment bound of the original
claim fails for coarse bid precision and large prices). -/
theorem claim_C10_roundtrip_bound (price totalCost : ℚ)
    (bidPrecision askPrecision : ℕ) (hp : price ≠ 0) :
    |toFixed askPrecision
        ((getQuantityAndAdjustedTotal price totalCost bidPrecision askPrecision).1
          * price)
      - (getQuantityAndAdjustedTotal price totalCost bidPrecision askPrecision).2|
      ≤ |price| / (2 * 10 ^ bidPrecision) + 1 / (2 * 10 ^ askPrecision) := by
  set A := toFixed askPrecision (totalCost * price) with hA
  have hq : (getQuantityAndAdjustedTotal price totalCost bidPrecision askPrecision).1
      = toFixed bidPrecision (A / price) := rfl
  have hA2 : (getQuantityAndAdjustedTotal price totalCost bidPrecision askPrecision).2
      = A := rfl
  rw [hq, hA2]
  set q := toFixed bidPrecision (A / price) with hqdef
  have h1 : |q - A / price| ≤ 1 / (2 * 10 ^ bidPrecision) :=
    toFixed_sub_abs_le bidPrecision (A / price)
  have h2 : |q * price - A| ≤ |price| / (2 * 10 ^ bidPrecision) := by
    have hrw : q * price - A = (q - A / price) * price := by
      field_simp
    rw [hrw, abs_mul]
    calc |q - A / price| * |price|
        ≤ (1 / (2 * 10 ^ bidPrecision)) * |price| := by
          apply mul_le_mul_of_nonneg_right h1 (abs_nonneg price)
      _ = |price| / (2 * 10 ^ bidPrecision) := by ring
  have h3 : |toFixed askPrecision (q * price) - q * price|
      ≤ 1 / (2 * 10 ^ askPrecision) :=
    toFixed_sub_abs_le askPrecision (q * price)
  calc |toFixed askPrecision (q * price) - A|
      = |(toFixed askPrecision (q * price) - q * price) + (q * price - A)| := by
        ring_nf
    _ ≤ |toFixed askPrecision (q * price) - q * price| + |q * price - A| :=
        abs_add _ _
    _ ≤ 1 / (2 * 10 ^ askPrecision) + |price| / (2 * 10 ^ bidPrecision) := by
        exact add_le_add h3 h2
    _ = |price| / (2 * 10 ^ bidPrecision) + 1 / (2 * 10 ^ askPrecision) := by
        ring

theorem claim_C10_witness :
    (2 : ℚ) ≠ 0 ∧
    |toFixed 2 ((getQuantityAndAdjustedTotal 2 (6 / 5) 0 2).1 * 2)
      - (getQuantityAndAdjustedTotal 2 (6 / 5) 0 2).2|
      ≤ |(2 : ℚ)| / (2 * 10 ^ (0 : ℕ)) + 1 / (2 * 10 ^ (2 : ℕ)) :=
  ⟨by norm_num, claim_C10_roundtrip_bound 2 (6 / 5) 0 2 (by norm_num)⟩

/-- Claim C4: initial placement never submits more than gridLevels
orders; a candidate list longer than maxGrids results in no submission at
all; and maxGrids never exceeds gridLevels. -/
theorem claim_C4_placement_bounded (g : GridParams) (sellBalances buyBalances : ℚ) :
    (submittedOrders (gridInitialPlacement g sellBalances buyBalances)).length
      ≤ g.gridLevels ∧
    g.maxGrids ≤ g.gridLevels ∧
    (g.maxGrids < g.gridCandidates.length →
      submittedOrders (gridInitialPlacement g sellBalances buyBalances) = []) := by
  have hmax : g.maxGrids ≤ g.gridLevels := by
    unfold GridParams.maxGrids
    split <;> omega
  refine ⟨?_, hmax, ?_⟩
  · unfold gridInitialPlacement
    split_ifs with h0 hbal hcnt
    · simp [submittedOrders]
    · simp [submittedOrders]
    · simpa [submittedOrders] using le_trans hcnt hmax
    · simp [submittedOrders]
  · intro hgt
    unfold gridInitialPlacement
    split_ifs with h0 hbal hcnt
    · rfl
    · rfl
    · omega
    · rfl

theorem claim_C4_witness :
    GridParams.maxGrids ⟨4, 2, 1, 10, 0, 0, 3, "AB", "A", "B"⟩
        < (GridParams.gridCandidates ⟨4, 2, 1, 10, 0, 0, 3, "AB", "A", "B"⟩).length ∧
    submittedOrders
        (gridInitialPlacement ⟨4, 2, 1, 10, 0, 0, 3, "AB", "A", "B"⟩ 1000 1000)
      = [] := by
  have hcount : GridParams.maxGrids ⟨4, 2, 1, 10, 0, 0, 3, "AB", "A", "B"⟩
      < (GridParams.gridCandidates ⟨4, 2, 1, 10, 0, 0, 3, "AB", "A", "B"⟩).length := by
    norm_num [GridParams.gridCandidates, GridParams.candidateIndices,
      GridParams.levelOrder, GridParams.levelPrice, GridParams.lastSalePrice,
      GridParams.upperScaled, GridParams.lowerScaled, GridParams.gridSize,
      GridParams.gridPrice, GridParams.priceTraded, GridParams.startIndex,
      GridParams.maxGrids, getQuantityAndAdjustedTotal, toFixed, roundHalfUp,
      List.range', List.filterMap_cons]
  exact ⟨hcount,
    (claim_C4_placement_bounded ⟨4, 2, 1, 10, 0, 0, 3, "AB", "A", "B"⟩ 1000 1000).2.2
      hcount⟩

/-- Claim C5: with a nonzero grid, a projected requirement exceeding the
available balance on either side makes the initial-placement branch abort
with a balance-low event carrying the requested and available amounts (so
nothing is submitted), and when neither requirement exceeds its balance no
balance-low event is possible. -/
theorem claim_C5_balance_gate (g : GridParams) (sellBalances buyBalances : ℚ)
    (h : g.gridLevels ≠ 0) :
    ((sellBalances < g.gridSellTotal ∨ buyBalances < g.gridBuyTotal) →
      gridInitialPlacement g sellBalances buyBalances
        = GridInitOutcome.lowBalance
            ⟨g.bidTokenCode ++ "-" ++ g.askTokenCode,
              g.gridSellTotal, sellBalances, g.gridBuyTotal, buyBalances⟩ ∧
      submittedOrders (gridInitialPlacement g sellBalances buyBalances) = []) ∧
    (¬ (sellBalances < g.gridSellTotal ∨ buyBalances < g.gridBuyTotal) →
      ∀ ev, gridInitialPlacement g sellBalances buyBalances
        ≠ GridInitOutcome.lowBalance ev) := by
  constructor
  · intro hlow
    unfold gridInitialPlacement
    rw [if_neg h, if_pos hlow]
    exact ⟨rfl, by simp [submittedOrders, gridInitialPlacement, if_neg h, if_pos hlow]⟩
  · intro hok ev
    unfold gridInitialPlacement
    rw [if_neg h, if_neg hok]
    split_ifs <;> simp

theorem claim_C5_witness :
    ((⟨4, 2, 1, 10, 0, 0, 3, "AB", "A", "B"⟩ : GridParams).gridLevels ≠ 0) ∧
    ((0 : ℚ) < GridParams.gridSellTotal ⟨4, 2, 1, 10, 0, 0, 3, "AB", "A", "B"⟩ ∨
      (1000 : ℚ) < GridParams.gridBuyTotal ⟨4, 2, 1, 10, 0, 0, 3, "AB", "A", "B"⟩) ∧
    (gridInitialPlacement ⟨4, 2, 1, 10, 0, 0, 3, "AB", "A", "B"⟩ 0 1000
      = GridInitOutcome.lowBalance
          ⟨"A" ++ "-" ++ "B",
            GridParams.gridSellTotal ⟨4, 2, 1, 10, 0, 0, 3, "AB", "A", "B"⟩, 0,
            GridParams.gridBuyTotal ⟨4, 2, 1, 10, 0, 0, 3, "AB", "A", "B"⟩, 1000⟩ ∧
      submittedOrders (gridInitialPlacement ⟨4, 2, 1, 10, 0, 0, 3, "AB", "A", "B"⟩ 0 1000)
        = []) := by
  have hlow : (0 : ℚ) < GridParams.gridSellTotal ⟨4, 2, 1, 10, 0, 0, 3, "AB", "A", "B"⟩ ∨
      (1000 : ℚ) < GridParams.gridBuyTotal ⟨4, 2, 1, 10, 0, 0, 3, "AB", "A", "B"⟩ := by
    left
    norm_num [GridParams.gridSellTotal, GridParams.gridCandidates,
      GridParams.candidateIndices, GridParams.levelOrder, GridParams.levelPrice,
      GridParams.lastSalePrice, GridParams.upperScaled, GridParams.lowerScaled,
      GridParams.gridSize, GridParams.gridPrice, GridParams.priceTraded,
      GridParams.startIndex, GridParams.maxGrids, getQuantityAndAdjustedTotal,
      toFixed, roundHalfUp, List.range', List.filterMap_cons, List.filter_cons,
      beq_iff_eq, buy_ne_sell, sell_ne_buy]
  exact ⟨by norm_num,  hlow,
    (claim_C5_balance_gate ⟨4, 2, 1, 10, 0, 0, 3, "AB", "A", "B"⟩ 0 1000
      (by norm_num)).1 hlow⟩

/-- Claim C6 (counterexample to the original boundary conditions): with
upperLimit = 2, lowerLimit = 1 and a last trade price of exactly 2 (at the
upper limit, hence not strictly above both limits nor strictly below both),
level index 0 is nevertheless not a candidate: the code uses non-strict
comparisons, so it already skips the topmost level when the price merely
reaches the upper limit. -/
theorem claim_C6_counterexample :
    ¬ ((⟨2, 1, 2, 100, 0, 0, 2, "AB", "A", "B"⟩ : GridParams).upperLimit
          < (⟨2, 1, 2, 100, 0, 0, 2, "AB", "A", "B"⟩ : GridParams).lastSalePrice ∧
        (⟨2, 1, 2, 100, 0, 0, 2, "AB", "A", "B"⟩ : GridParams).lowerLimit
          < (⟨2, 1, 2, 100, 0, 0, 2, "AB", "A", "B"⟩ : GridParams).lastSalePrice) ∧
    ¬ ((⟨2, 1, 2, 100, 0, 0, 2, "AB", "A", "B"⟩ : GridParams).lastSalePrice
          < (⟨2, 1, 2, 100, 0, 0, 2, "AB", "A", "B"⟩ : GridParams).upperLimit ∧
        (⟨2, 1, 2, 100, 0, 0, 2, "AB", "A", "B"⟩ : GridParams).lastSalePrice
          < (⟨2, 1, 2, 100, 0, 0, 2, "AB", "A", "B"⟩ : GridParams).lowerLimit) ∧
    0 ∉ (⟨2, 1, 2, 100, 0, 0, 2, "AB", "A", "B"⟩ : GridParams).candidateIndices := by
  norm_num [GridParams.candidateIndices, GridParams.lastSalePrice,
    GridParams.upperScaled, GridParams.lowerScaled, GridParams.priceTraded,
    GridParams.startIndex, GridParams.maxGrids, toFixed, roundHalfUp,
    List.range']

/-- Claim C6 (amended): during grid initial placement, level index 0 (the
level at the upper limit) is skipped exactly when the last sale price is
at or above both limits, level index gridLevels (the level at the lower
limit) is skipped exactly when it is at or below both limits (the original
claim's strict comparisons fail when the price sits exactly on a limit),
and every intermediate index is always a candidate. -/
theorem claim_C6_boundary_skip (g : GridParams) (h : g.gridLevels ≠ 0) :
    (0 ∉ g.candidateIndices
      ↔ (g.upperLimit ≤ g.lastSalePrice ∧ g.lowerLimit ≤ g.lastSalePrice)) ∧
    (g.gridLevels ∉ g.candidateIndices
      ↔ (g.lastSalePrice ≤ g.upperLimit ∧ g.lastSalePrice ≤ g.lowerLimit)) ∧
    (∀ k, 0 < k → k < g.gridLevels → k ∈ g.candidateIndices) := by
  have hK : (0 : ℚ) < (10 : ℚ) ^ g.bidPrecision := by positivity
  have hup : g.upperScaled ≤ g.priceTraded ↔ g.upperLimit ≤ g.lastSalePrice := by
    unfold GridParams.upperScaled GridParams.priceTraded
    exact mul_le_mul_right hK
  have hlo : g.lowerScaled ≤ g.priceTraded ↔ g.lowerLimit ≤ g.lastSalePrice := by
    unfold GridParams.lowerScaled GridParams.priceTraded
    exact mul_le_mul_right hK
  have hup2 : g.priceTraded ≤ g.upperScaled ↔ g.lastSalePrice ≤ g.upperLimit := by
    unfold GridParams.upperScaled GridParams.priceTraded
    exact mul_le_mul_right hK
  have hlo2 : g.priceTraded ≤ g.lowerScaled ↔ g.lastSalePrice ≤ g.lowerLimit := by
    unfold GridParams.lowerScaled GridParams.priceTraded
    exact mul_le_mul_right hK
  have hs1 : g.startIndex ≤ 1 := by
    unfold GridParams.startIndex
    split <;> omega
  have hm1 : g.gridLevels - 1 ≤ g.maxGrids ∧ g.maxGrids ≤ g.gridLevels := by
    unfold GridParams.maxGrids
    split <;> omega
  have hmem : ∀ k, k ∈ g.candidateIndices ↔ (g.startIndex ≤ k ∧ k ≤ g.maxGrids) := by
    intro k
    unfold GridParams.candidateIndices
    rw [List.mem_range'_1]
    omega
  have hgl : 1 ≤ g.gridLevels := Nat.one_le_iff_ne_zero.mpr h
  have hsc : (g.startIndex = 1 ∧ (g.upperScaled ≤ g.priceTraded ∧ g.lowerScaled ≤ g.priceTraded))
      ∨ (g.startIndex = 0 ∧ ¬ (g.upperScaled ≤ g.priceTraded ∧ g.lowerScaled ≤ g.priceTraded)) := by
    unfold GridParams.startIndex
    split_ifs with hc
    · exact Or.inl ⟨rfl, hc⟩
    · exact Or.inr ⟨rfl, hc⟩
  have hmc : (g.maxGrids = g.gridLevels - 1 ∧ (g.priceTraded ≤ g.upperScaled ∧ g.priceTraded ≤ g.lowerScaled))
      ∨ (g.maxGrids = g.gridLevels ∧ ¬ (g.priceTraded ≤ g.upperScaled ∧ g.priceTraded ≤ g.lowerScaled)) := by
    unfold GridParams.maxGrids
    split_ifs with hc
    · exact Or.inl ⟨rfl, hc⟩
    · exact Or.inr ⟨rfl, hc⟩
  refine ⟨?_, ?_, ?_⟩
  · rw [← hup, ← hlo]
    simp only [hmem]
    rcases hsc with ⟨he, hc⟩ | ⟨he, hc⟩
    · rw [he]
      exact iff_of_true (by omega) hc
    · rw [he]
      exact iff_of_false (not_not_intro ⟨Nat.zero_le _, Nat.zero_le _⟩) hc
  · rw [← hup2, ← hlo2]
    simp only [hmem]
    rcases hmc with ⟨he, hc⟩ | ⟨he, hc⟩
    · rw [he]
      exact iff_of_true (by omega) hc
    · rw [he]
      exact iff_of_false (not_not_intro ⟨by omega, le_refl _⟩) hc
  · intro k hk1 hk2
    rw [hmem k]
    omega

theorem claim_C6_witness :
    ((⟨4, 2, 2, 10, 0, 0, 3, "AB", "A", "B"⟩ : GridParams).gridLevels ≠ 0) ∧
    ((0 ∉ (⟨4, 2, 2, 10, 0, 0, 3, "AB", "A", "B"⟩ : GridParams).candidateIndices
      ↔ ((⟨4, 2, 2, 10, 0, 0, 3, "AB", "A", "B"⟩ : GridParams).upperLimit
            ≤ (⟨4, 2, 2, 10, 0, 0, 3, "AB", "A", "B"⟩ : GridParams).lastSalePrice ∧
          (⟨4, 2, 2, 10, 0, 0, 3, "AB", "A", "B"⟩ : GridParams).lowerLimit
            ≤ (⟨4, 2, 2, 10, 0, 0, 3, "AB", "A", "B"⟩ : GridParams).lastSalePrice)) ∧
    ((⟨4, 2, 2, 10, 0, 0, 3, "AB", "A", "B"⟩ : GridParams).gridLevels
        ∉ (⟨4, 2, 2, 10, 0, 0, 3, "AB", "A", "B"⟩ : GridParams).candidateIndices
      ↔ ((⟨4, 2, 2, 10, 0, 0, 3, "AB", "A", "B"⟩ : GridParams).lastSalePrice
            ≤ (⟨4, 2, 2, 10, 0, 0, 3, "AB", "A", "B"⟩ : GridParams).upperLimit ∧
          (⟨4, 2, 2, 10, 0, 0, 3, "AB", "A", "B"⟩ : GridParams).lastSalePrice
            ≤ (⟨4, 2, 2, 10, 0, 0, 3, "AB", "A", "B"⟩ : GridParams).lowerLimit)) ∧
    (∀ k, 0 < k → k < (⟨4, 2, 2, 10, 0, 0, 3, "AB", "A", "B"⟩ : GridParams).gridLevels →
      k ∈ (⟨4, 2, 2, 10, 0, 0, 3, "AB", "A", "B"⟩ : GridParams).candidateIndices)) :=
  ⟨by norm_num,
    claim_C6_boundary_skip ⟨4, 2, 2, 10, 0, 0, 3, "AB", "A", "B"⟩ (by norm_num)⟩

/-- The filled orders collected by the fill-detection fold are exactly the
tracked orders without a live price match, regardless of the evolving
currentOrders state. -/
theorem gridFillDetection_foldl_filled (variant : Bool) (cfg : GridFillConfig)
    (openOrders : List OpenOrder) (init : GridFillResult)
    (l : List TradeOrder) :
    (l.foldl (gridFillStep variant cfg openOrders) init).filled
      = init.filled
        ++ l.filter (fun t => !(openOrders.any (fun o => o.price == t.price))) := by
  induction l generalizing init with
  | nil => simp
  | cons t ts ih =>
    simp only [List.foldl_cons, List.filter_cons]
    by_cases hm : openOrders.any (fun o => o.price == t.price)
    · rw [ih]
      simp [gridFillStep, hm]
    · rw [ih]
      simp only [hm, Bool.not_false, Bool.false_eq_true, not_false_eq_true,
        gridFillStep, if_neg hm]
      simp [hm]

/-- Bool-to-Prop bridge for the spike matching rule. -/
theorem stillOpen_iff (openOrders : List OpenOrder) (t : TrackedOrder) :
    stillOpen openOrders t = true
      ↔ (match t.orderId with
          | some id => ∃ o ∈ openOrders, o.order_id = id
          | none => ∃ o ∈ openOrders, o.price = t.price ∧ o.order_side = t.orderSide) := by
  cases h : t.orderId with
  | none => simp [stillOpen, h, List.any_eq_true, Bool.and_eq_true, beq_iff_eq]
  | some id => simp [stillOpen, h, List.any_eq_true, beq_iff_eq]

/-- Claim C1 (counterexample to the stated matching rule): the grid
engine matches tracked orders against live orders by price alone. A
tracked BUY at price 5 whose only live price-5 order is a SELL has no
(price, side) match — the claim says it must be reported filled — yet the
code finds the price match and reports nothing. -/
theorem claim_C1_counterexample :
    (¬ ∃ o ∈ ([⟨"id1", OrderSide.sell, 5, 7⟩] : List OpenOrder),
        o.price = (5 : ℚ) ∧ o.order_side = OrderSide.buy) ∧
    (gridFillDetection false ⟨false, 1, 100, 0, 0, "AB"⟩
        [⟨"id1", OrderSide.sell, 5, 7⟩]
        [⟨OrderSide.buy, 5, 100, "AB"⟩]).filled = [] ∧
    (gridFillDetection false ⟨false, 1, 100, 0, 0, "AB"⟩
        [⟨"id1", OrderSide.sell, 5, 7⟩]
        [⟨OrderSide.buy, 5, 100, "AB"⟩]).latestOrders = [] := by
  refine ⟨?_, ?_, ?_⟩
  · rintro ⟨o, ho, hp, hside⟩
    simp only [List.mem_singleton] at ho
    subst ho
    exact sell_ne_buy hside
  · simp [gridFillDetection, gridFillStep, currentOrdersInit]
  · simp [gridFillDetection, gridFillStep, currentOrdersInit]

/-- Claim C1 (amended): in grid fill detection (both engine copies) a
tracked order is reported filled exactly when no live open order has an
equal price — order ids are never consulted and the side is ignored; in
spike fill detection a tracked order remains open exactly when a live
order matches it by exchange order id when one is recorded, and by exact
(price, side) otherwise. -/
theorem claim_C1_fill_matching (variant : Bool) (cfg : GridFillConfig)
    (openOrders postPlacementOrders : List OpenOrder)
    (oldOrders : List TradeOrder) (t : TradeOrder)
    (ma : ℚ) (symbol : String) (orderAmount : ℚ) (bid ask : ℕ) (ts : String)
    (spikeOrders takeProfitOrders : List TrackedOrder) (tr : TrackedOrder) :
    (t ∈ (gridFillDetection variant cfg openOrders oldOrders).filled
      ↔ t ∈ oldOrders ∧ ∀ o ∈ openOrders, o.price ≠ t.price) ∧
    (tr ∈ (spikeFillPass openOrders postPlacementOrders ma symbol orderAmount
        bid ask ts spikeOrders takeProfitOrders).spikeFilled
      ↔ tr ∈ spikeOrders ∧
        ¬ (match tr.orderId with
            | some id => ∃ o ∈ openOrders, o.order_id = id
            | none => ∃ o ∈ openOrders, o.price = tr.price ∧ o.order_side = tr.orderSide)) := by
  constructor
  · rw [gridFillDetection, gridFillDetection_foldl_filled]
    simp only [List.nil_append, List.mem_filter, Bool.not_eq_true',
      List.any_eq_false, and_congr_right_iff]
    intro _
    constructor
    · intro hall o ho
      exact fun hp => by simpa [hp] using hall o ho
    · intro hall o ho
      simpa using hall o ho
  · show tr ∈ spikeOrders.filter (fun t => !(stillOpen openOrders t)) ↔ _
    rw [List.mem_filter]
    simp only [Bool.not_eq_true', ← stillOpen_iff, and_congr_right_iff]
    intro _
    constructor
    · intro hfalse
      simp [hfalse]
    · intro hnot
      simpa using hnot

/-- Claim C2 (counterexample to the sizing part): in the primary grid
engine (the copy that actually submits orders), a SELL fill at price 10
with gridPrice 1 synthesizes a counter BUY of size 900 = round(100 * 9, 2)
from the raw per-level amount of 100; the claim's spread-inflated size
would be round(105.05 * 9, 2) = 945.45. -/
theorem claim_C2_counterexample :
    ((gridFillDetection false ⟨false, 1, 100, 0, 2, "S"⟩
        [⟨"x", OrderSide.sell, 3, 1⟩]
        [⟨OrderSide.sell, 10, 5, "S"⟩]).latestOrders
      = [⟨OrderSide.buy, 9, 900, "S"⟩]) ∧
    (getQuantityAndAdjustedTotal 9
        (100 * (1 + (((1 : ℚ) / 10 * 100 - 1 / 10) / 2 + 1 / 10) / 100)) 0 2).2
      = 18909 / 20 ∧
    (900 : ℚ) ≠ 18909 / 20 := by
  refine ⟨?_, ?_, by norm_num⟩
  · norm_num [gridFillDetection, gridFillStep, currentOrdersInit,
      counterOrderFor, counterBuyPrice, getHighestBid, getLowestAsk,
      getQuantityAndAdjustedTotal, toFixed, roundHalfUp, List.filter_cons,
      buy_ne_sell, sell_ne_buy, beq_iff_eq]
  · norm_num [getQuantityAndAdjustedTotal, toFixed, roundHalfUp]

/-- Claim C2 (amended): when grid fill detection classifies a tracked
SELL order as filled, the synthesized counter BUY is priced at
filled.price - gridPrice when no highest bid exists among current orders
or raw grid placement is configured, and at highestBid + gridPrice
otherwise — in both engine copies; its size is the per-level bid amount
converted via the decimal helper, where the primary engine uses the
configured amount unchanged and only the variant engine copy first
inflates it by ((gridPrice / filled.price * 100) - 0.1) / 2 + 0.1
percent. -/
theorem claim_C2_sell_counter (variant : Bool) (cfg : GridFillConfig)
    (openOrders : List OpenOrder) (st : GridFillResult) (t : TradeOrder)
    (hside : t.orderSide = OrderSide.sell)
    (hnomatch : ∀ o ∈ openOrders, o.price ≠ t.price) :
    ∃ counter : TradeOrder,
      gridFillStep variant cfg openOrders st t
        = ⟨st.currentOrders ++ [counter], st.latestOrders ++ [counter],
            st.filled ++ [t]⟩ ∧
      counter.orderSide = OrderSide.buy ∧
      counter.price
        = (if getHighestBid st.currentOrders = none ∨ cfg.gridPlacement = true
           then toFixed cfg.askPrecision (t.price - cfg.gridPrice)
           else toFixed cfg.askPrecision
             ((getHighestBid st.currentOrders).getD 0 + cfg.gridPrice)) ∧
      counter.quantity
        = (getQuantityAndAdjustedTotal counter.price
            (if variant
             then cfg.bidAmountPerLevel
               * (1 + ((cfg.gridPrice / t.price * 100 - 1 / 10) / 2 + 1 / 10) / 100)
             else cfg.bidAmountPerLevel)
            cfg.bidPrecision cfg.askPrecision).2 := by
  have hm : (openOrders.any (fun o => o.price == t.price)) = false := by
    simp only [List.any_eq_false, beq_iff_eq]
    exact hnomatch
  refine ⟨counterOrderFor variant cfg st.currentOrders t, ?_, ?_, ?_, ?_⟩
  · rw [gridFillStep, hm]
    simp
  · rw [counterOrderFor, hside]
  · rw [counterOrderFor, hside]
    show counterBuyPrice cfg st.currentOrders t.price = _
    rw [counterBuyPrice]
    cases hhb : getHighestBid st.currentOrders with
    | none => simp [hhb]
    | some hb =>
      by_cases hgp : cfg.gridPlacement = true
      · simp [hgp]
      · have hgp2 : cfg.gridPlacement = false := by
          cases hcfg : cfg.gridPlacement
          · rfl
          · exact absurd hcfg hgp
        simp [hhb, hgp2]
  · rw [counterOrderFor, hside]
    show (getQuantityAndAdjustedTotal (counterBuyPrice cfg st.currentOrders t.price)
        (if variant then adjustedBidAmountPerLevel cfg t.price
         else cfg.bidAmountPerLevel) cfg.bidPrecision cfg.askPrecision).2 = _
    have hamt : adjustedBidAmountPerLevel cfg t.price
        = cfg.bidAmountPerLevel
          * (1 + ((cfg.gridPrice / t.price * 100 - 1 / 10) / 2 + 1 / 10) / 100) := by
      unfold adjustedBidAmountPerLevel
      ring
    rw [hamt]

theorem claim_C2_witness :
    ((⟨OrderSide.sell, 10, 5, "S"⟩ : TradeOrder).orderSide = OrderSide.sell) ∧
    (∀ o ∈ ([⟨"x", OrderSide.sell, 3, 1⟩] : List OpenOrder),
      o.price ≠ (⟨OrderSide.sell, 10, 5, "S"⟩ : TradeOrder).price) ∧
    (∃ counter : TradeOrder,
      gridFillStep true ⟨false, 1, 100, 0, 2, "S"⟩
          [⟨"x", OrderSide.sell, 3, 1⟩]
          ⟨[⟨OrderSide.sell, 3, 1, "S"⟩], [], []⟩
          ⟨OrderSide.sell, 10, 5, "S"⟩
        = ⟨[⟨OrderSide.sell, 3, 1, "S"⟩] ++ [counter], [] ++ [counter],
            [] ++ [⟨OrderSide.sell, 10, 5, "S"⟩]⟩ ∧
      counter.orderSide = OrderSide.buy ∧
      counter.price
        = (if getHighestBid [⟨OrderSide.sell, 3, 1, "S"⟩] = none
              ∨ (⟨false, 1, 100, 0, 2, "S"⟩ : GridFillConfig).gridPlacement = true
           then toFixed 2 ((10 : ℚ) - 1)
           else toFixed 2 ((getHighestBid [⟨OrderSide.sell, 3, 1, "S"⟩]).getD 0 + 1)) ∧
      counter.quantity
        = (getQuantityAndAdjustedTotal counter.price
            (if true then (100 : ℚ) * (1 + (((1 : ℚ) / 10 * 100 - 1 / 10) / 2 + 1 / 10) / 100)
             else (100 : ℚ)) 0 2).2) := by
  have hno : ∀ o ∈ ([⟨"x", OrderSide.sell, 3, 1⟩] : List OpenOrder),
      o.price ≠ (⟨OrderSide.sell, 10, 5, "S"⟩ : TradeOrder).price := by
    intro o ho
    simp only [List.mem_singleton] at ho
    subst ho
    norm_num
  exact ⟨rfl, hno,
    claim_C2_sell_counter true ⟨false, 1, 100, 0, 2, "S"⟩
      [⟨"x", OrderSide.sell, 3, 1⟩] ⟨[⟨OrderSide.sell, 3, 1, "S"⟩], [], []⟩
      ⟨OrderSide.sell, 10, 5, "S"⟩ rfl hno⟩

/-- When every tracked order has a live price match the fill-detection
fold never changes its state. -/
theorem gridFillDetection_foldl_no_fill (variant : Bool) (cfg : GridFillConfig)
    (openOrders : List OpenOrder) (init : GridFillResult)
    (l : List TradeOrder)
    (h : ∀ t ∈ l, openOrders.any (fun o => o.price == t.price) = true) :
    l.foldl (gridFillStep variant cfg openOrders) init = init := by
  induction l generalizing init with
  | nil => rfl
  | cons t ts ih =>
    rw [List.foldl_cons, gridFillStep, if_pos (h t (List.mem_cons_self t ts))]
    exact ih init (fun x hx => h x (List.mem_cons_of_mem t hx))

/-- Claim C7: a fill-detection pass against a live open-order set in
which every tracked order still appears leaves the tracked state
unchanged, synthesizes no counter-orders and emits no order-filled
events — in the grid engine (live orders mirroring the tracked tuples)
and in the spike engine (every tracked spike and take-profit order still
matched by the engine's own matching rule). -/
theorem claim_C7_no_fill_idempotence (variant : Bool) (cfg : GridFillConfig)
    (gridLevels : ℕ) (openOrders postPlacementOrders : List OpenOrder)
    (oldOrders : List TradeOrder)
    (ma : ℚ) (symbol : String) (orderAmount : ℚ) (bid ask : ℕ) (ts : String)
    (spikeOrders takeProfitOrders : List TrackedOrder)
    (hgrid : currentOrdersInit cfg openOrders = oldOrders)
    (hs : ∀ t ∈ spikeOrders, stillOpen openOrders t = true)
    (ht : ∀ t ∈ takeProfitOrders, stillOpen openOrders t = true) :
    gridReconcilePass variant cfg gridLevels oldOrders openOrders
      = (oldOrders, [], []) ∧
    spikeFillPass openOrders postPlacementOrders ma symbol orderAmount bid ask ts
        spikeOrders takeProfitOrders
      = ⟨spikeOrders, [], takeProfitOrders, [], []⟩ := by
  constructor
  · unfold gridReconcilePass
    split_ifs with hgate
    · have hall : ∀ t ∈ oldOrders,
          openOrders.any (fun o => o.price == t.price) = true := by
        intro t htm
        rw [← hgrid] at htm
        obtain ⟨o, ho, rfl⟩ := List.mem_map.mp htm
        simp only [List.any_eq_true, beq_iff_eq]
        exact ⟨o, ho, rfl⟩
      rw [gridFillDetection, gridFillDetection_foldl_no_fill _ _ _ _ _ hall, hgrid]
    · rfl
  · have hfs : spikeOrders.filter (stillOpen openOrders) = spikeOrders :=
      List.filter_eq_self.mpr hs
    have hfs2 : spikeOrders.filter (fun t => !(stillOpen openOrders t)) = [] := by
      rw [List.filter_eq_nil_iff]
      intro t htm
      simp [hs t htm]
    have hft : takeProfitOrders.filter (stillOpen openOrders) = takeProfitOrders :=
      List.filter_eq_self.mpr ht
    have hft2 : takeProfitOrders.filter (fun t => !(stillOpen openOrders t)) = [] := by
      rw [List.filter_eq_nil_iff]
      intro t htm
      simp [ht t htm]
    unfold spikeFillPass
    simp only [hfs, hfs2, List.map_nil, List.isEmpty_nil, if_pos, hft, hft2]

theorem claim_C7_witness :
    (currentOrdersInit ⟨false, 1, 100, 0, 0, "S"⟩ [⟨"i", OrderSide.sell, 5, 7⟩]
      = [⟨OrderSide.sell, 5, 7, "S"⟩]) ∧
    (∀ t ∈ ([⟨⟨OrderSide.sell, 5, 7, "S"⟩, some "i", some "t0"⟩] : List TrackedOrder),
      stillOpen [⟨"i", OrderSide.sell, 5, 7⟩] t = true) ∧
    (∀ t ∈ ([] : List TrackedOrder),
      stillOpen [⟨"i", OrderSide.sell, 5, 7⟩] t = true) ∧
    (gridReconcilePass false ⟨false, 1, 100, 0, 0, "S"⟩ 3
        [⟨OrderSide.sell, 5, 7, "S"⟩] [⟨"i", OrderSide.sell, 5, 7⟩]
      = ([⟨OrderSide.sell, 5, 7, "S"⟩], [], []) ∧
    spikeFillPass [⟨"i", OrderSide.sell, 5, 7⟩] [] 6 "S" 100 0 0 "t1"
        [⟨⟨OrderSide.sell, 5, 7, "S"⟩, some "i", some "t0"⟩] []
      = ⟨[⟨⟨OrderSide.sell, 5, 7, "S"⟩, some "i", some "t0"⟩], [], [], [], []⟩) := by
  have h1 : currentOrdersInit ⟨false, 1, 100, 0, 0, "S"⟩ [⟨"i", OrderSide.sell, 5, 7⟩]
      = [⟨OrderSide.sell, 5, 7, "S"⟩] := rfl
  have h2 : ∀ t ∈ ([⟨⟨OrderSide.sell, 5, 7, "S"⟩, some "i", some "t0"⟩] : List TrackedOrder),
      stillOpen [⟨"i", OrderSide.sell, 5, 7⟩] t = true := by
    intro t htm
    simp only [List.mem_singleton] at htm
    subst htm
    simp [stillOpen]
  have h3 : ∀ t ∈ ([] : List TrackedOrder),
      stillOpen [⟨"i", OrderSide.sell, 5, 7⟩] t = true := by
    intro t htm
    cases htm
  exact ⟨h1, h2, h3,
    claim_C7_no_fill_idempotence false ⟨false, 1, 100, 0, 0, "S"⟩ 3
      [⟨"i", OrderSide.sell, 5, 7⟩] [] [⟨OrderSide.sell, 5, 7, "S"⟩]
      6 "S" 100 0 0 "t1"
      [⟨⟨OrderSide.sell, 5, 7, "S"⟩, some "i", some "t0"⟩] [] h1 h2 h3⟩

set_option maxHeartbeats 1000000 in
/-- Serialization followed by field readout restores every tracked
order exactly. -/
theorem decodeTrackedOrder_encodeTrackedOrder (t : TrackedOrder) :
    decodeTrackedOrder (encodeTrackedOrder t) = some t := by
  obtain ⟨⟨side, p, q, sym⟩, oid, pat⟩ := t
  cases side <;> cases oid <;> cases pat <;>
    simp [encodeTrackedOrder, decodeTrackedOrder, Json.getField,
      OrderSide.toNum, List.find?_cons_of_pos, List.find?_cons_of_neg]

/-- Claim C8: with the state directory and instance id configured, saving
a tracked-order list and loading with no intervening write returns JSON
objects that decode to exactly the saved orders (the record-level
timestamp does not affect them); with the file missing, unparseable, or
parsed without an orders array, load returns the empty list. -/
theorem claim_C8_store_roundtrip (stateDir instanceId key ts : String)
    (orders : List TrackedOrder) (file : RecordFile) :
    ((loadTrackedOrders (some stateDir) (some instanceId)
        (saveTrackedOrders (some stateDir) (some instanceId) key ts orders file)).map
      decodeTrackedOrder) = orders.map some ∧
    loadTrackedOrders (some stateDir) (some instanceId) (none : RecordFile) = [] ∧
    loadTrackedOrders (some stateDir) (some instanceId)
      (some (none : Option Json)) = [] ∧
    (∀ j : Json, (∀ xs, j.getField "orders" ≠ some (Json.arr xs)) →
      loadTrackedOrders (some stateDir) (some instanceId) (some (some j)) = []) := by
  refine ⟨?_, rfl, rfl, ?_⟩
  · have hload : loadTrackedOrders (some stateDir) (some instanceId)
        (saveTrackedOrders (some stateDir) (some instanceId) key ts orders file)
        = orders.map encodeTrackedOrder := by
      simp [loadTrackedOrders, saveTrackedOrders, saveTrackedOrdersRecord,
        Json.getField, List.find?]
    rw [hload, List.map_map]
    simp [Function.comp, decodeTrackedOrder_encodeTrackedOrder]
  · intro j hj
    show (match j.getField "orders" with
      | some (Json.arr orders) => orders
      | _ => []) = []
    cases hfield : j.getField "orders" with
    | none => rfl
    | some v =>
      cases v with
      | arr xs => exact absurd hfield (hj xs)
      | null => rfl
      | bool b => rfl
      | num q => rfl
      | str s => rfl
      | obj fields => rfl

theorem claim_C8_witness :
    ((∀ xs, Json.getField Json.null "orders" ≠ some (Json.arr xs)) ∧
      loadTrackedOrders (some "dir") (some "iid") (some (some Json.null)) = []) ∧
    (loadTrackedOrders (some "dir") (some "iid")
        (saveTrackedOrders (some "dir") (some "iid") "spikebot" "t1"
          [⟨⟨OrderSide.buy, 5, 7, "S"⟩, some "i", some "t0"⟩] none)).map
      decodeTrackedOrder
      = ([⟨⟨OrderSide.buy, 5, 7, "S"⟩, some "i", some "t0"⟩] : List TrackedOrder).map
          some := by
  have hnull : ∀ xs, Json.getField Json.null "orders" ≠ some (Json.arr xs) := by
    intro xs h
    simp [Json.getField] at h
  exact ⟨⟨hnull,
      (claim_C8_store_roundtrip "dir" "iid" "spikebot" "t1"
        [⟨⟨OrderSide.buy, 5, 7, "S"⟩, some "i", some "t0"⟩] none).2.2.2
        Json.null hnull⟩,
    (claim_C8_store_roundtrip "dir" "iid" "spikebot" "t1"
      [⟨⟨OrderSide.buy, 5, 7, "S"⟩, some "i", some "t0"⟩] none).1⟩

/-- A flatMap of two-element blocks has twice as many elements. -/
theorem flatMap_pair_length (f g : ℕ → TradeOrder) (n : ℕ) :
    ((List.range n).flatMap (fun i => [f i, g i])).length = 2 * n := by
  induction n with
  | zero => rfl
  | succ m ih =>
    rw [List.range_succ, List.flatMap_append, List.length_append, ih]
    simp
    omega

/-- Positions 2l and 2l + 1 of a flatMap of two-element blocks hold the
l-th block. -/
theorem flatMap_pair_getElem (f g : ℕ → TradeOrder) (n l : ℕ) (h : l < n) :
    ((List.range n).flatMap (fun i => [f i, g i]))[2 * l]? = some (f l) ∧
    ((List.range n).flatMap (fun i => [f i, g i]))[2 * l + 1]? = some (g l) := by
  induction n with
  | zero => omega
  | succ m ih =>
    rw [List.range_succ, List.flatMap_append]
    have hlen : ((List.range m).flatMap (fun i => [f i, g i])).length = 2 * m :=
      flatMap_pair_length f g m
    rcases Nat.lt_succ_iff_lt_or_eq.mp h with hlt | rfl
    · obtain ⟨ih1, ih2⟩ := ih hlt
      rw [List.getElem?_append, if_pos (by omega), ih1,
        List.getElem?_append, if_pos (by omega), ih2]
      exact ⟨rfl, rfl⟩
    · rw [List.getElem?_append_right (by omega), hlen,
        List.getElem?_append_right (by omega), hlen]
      constructor
      · have : 2 * l - 2 * l = 0 := by omega
        rw [this]
        simp
      · have : 2 * l + 1 - 2 * l = 1 := by omega
        rw [this]
        simp

/-- Feeding one poll per price from a window that will be exactly full at
the last price: every earlier poll submits nothing and the last poll
submits the ladder around the mean of the accumulated window. -/
theorem runSpikeWarmup_spec (maWindow : ℕ) (cfg : SpikePairConfig)
    (bid ask : ℕ) (prices : List ℚ) :
    ∀ hist : List ℚ, hist.length + prices.length = maWindow → prices ≠ [] →
    ((∀ k, k + 1 < prices.length →
        (runSpikeWarmup maWindow cfg bid ask hist prices)[k]? = some []) ∧
      (runSpikeWarmup maWindow cfg bid ask hist prices)[prices.length - 1]?
        = some (buildSpikeOrders cfg (calculateMA (hist ++ prices)) bid ask)) := by
  induction prices with
  | nil =>
    intro hist hlen hne
    cases hne rfl
  | cons p ps ih =>
    intro hist hlen hne
    have hpush : pushPrice maWindow hist p = hist ++ [p] := by
      unfold pushPrice
      rw [if_neg]
      simp only [List.length_append, List.length_cons, List.length_nil] at hlen ⊢
      omega
    cases ps with
    | nil =>
      have hfull : ¬ ((hist ++ [p]).length < maWindow) := by
        simp only [List.length_append, List.length_cons, List.length_nil] at hlen ⊢
        omega
      refine ⟨fun k hk => absurd hk (by simp), ?_⟩
      show ((spikePollPlacement maWindow cfg bid ask hist p).2
        :: runSpikeWarmup maWindow cfg bid ask
            (spikePollPlacement maWindow cfg bid ask hist p).1 [])[0]? = _
      rw [spikePollPlacement, hpush, if_neg hfull]
      simp
    | cons q qs =>
      have hlt : (pushPrice maWindow hist p).length < maWindow := by
        rw [hpush]
        simp only [List.length_append, List.length_cons, List.length_nil] at hlen ⊢
        omega
      have hpoll : spikePollPlacement maWindow cfg bid ask hist p
          = (hist ++ [p], []) := by
        rw [spikePollPlacement, if_pos hlt, hpush]
      have hlen2 : (hist ++ [p]).length + (q :: qs).length = maWindow := by
        simp only [List.length_append, List.length_cons, List.length_nil] at hlen ⊢
        omega
      obtain ⟨ih1, ih2⟩ := ih (hist ++ [p]) hlen2 (by simp)
      constructor
      · intro k hk
        match k with
        | 0 =>
          show ((spikePollPlacement maWindow cfg bid ask hist p).2
            :: runSpikeWarmup maWindow cfg bid ask
                (spikePollPlacement maWindow cfg bid ask hist p).1 (q :: qs))[0]?
            = some []
          rw [hpoll]
          simp
        | Nat.succ k =>
          show ((spikePollPlacement maWindow cfg bid ask hist p).2
            :: runSpikeWarmup maWindow cfg bid ask
                (spikePollPlacement maWindow cfg bid ask hist p).1 (q :: qs))[k + 1]?
            = some []
          rw [hpoll]
          simp only [List.getElem?_cons_succ]
          exact ih1 k (by simpa using hk)
      · show ((spikePollPlacement maWindow cfg bid ask hist p).2
          :: runSpikeWarmup maWindow cfg bid ask
              (spikePollPlacement maWindow cfg bid ask hist p).1 (q :: qs))[(p :: q :: qs).length - 1]?
          = _
        rw [hpoll]
        have hidx : (p :: q :: qs).length - 1 = ((q :: qs).length - 1) + 1 := by
          simp
        rw [hidx]
        simp only [List.getElem?_cons_succ]
        rw [ih2]
        have : hist ++ [p] ++ (q :: qs) = hist ++ (p :: q :: qs) := by
          simp
        rw [this]

/-- Claim C9: starting a spike pair fresh with window size W and feeding
one price per poll, polls 1..W-1 submit nothing; poll W computes the
arithmetic mean of exactly the W prices seen and submits levels * 2
orders — for each level L in 1..levels a BUY at MA * (1 - deviationPct
* L / 100) and a SELL at MA * (1 + deviationPct * L / 100), each rounded
to the ask token's precision and sized via the decimal helper. -/
theorem claim_C9_spike_warmup (maWindow : ℕ) (cfg : SpikePairConfig)
    (bid ask : ℕ) (prices : List ℚ)
    (hlen : prices.length = maWindow) (hpos : maWindow ≠ 0) :
    (∀ k, k + 1 < maWindow →
      (runSpikeWarmup maWindow cfg bid ask [] prices)[k]? = some []) ∧
    ((runSpikeWarmup maWindow cfg bid ask [] prices)[maWindow - 1]?
      = some (buildSpikeOrders cfg (prices.sum / (maWindow : ℚ)) bid ask)) ∧
    (buildSpikeOrders cfg (prices.sum / (maWindow : ℚ)) bid ask).length
      = 2 * cfg.levels ∧
    (∀ l, l < cfg.levels →
      (buildSpikeOrders cfg (prices.sum / (maWindow : ℚ)) bid ask)[2 * l]?
        = some ⟨OrderSide.buy,
            toFixed ask (prices.sum / (maWindow : ℚ)
              * (1 - cfg.deviationPct * ((l : ℚ) + 1) / 100)),
            (getQuantityAndAdjustedTotal
              (toFixed ask (prices.sum / (maWindow : ℚ)
                * (1 - cfg.deviationPct * ((l : ℚ) + 1) / 100)))
              cfg.orderAmount bid ask).2, cfg.symbol⟩ ∧
      (buildSpikeOrders cfg (prices.sum / (maWindow : ℚ)) bid ask)[2 * l + 1]?
        = some ⟨OrderSide.sell,
            toFixed ask (prices.sum / (maWindow : ℚ)
              * (1 + cfg.deviationPct * ((l : ℚ) + 1) / 100)),
            (getQuantityAndAdjustedTotal
              (toFixed ask (prices.sum / (maWindow : ℚ)
                * (1 + cfg.deviationPct * ((l : ℚ) + 1) / 100)))
              cfg.orderAmount bid ask).1, cfg.symbol⟩) := by
  have hma : calculateMA ([] ++ prices) = prices.sum / (maWindow : ℚ) := by
    simp [calculateMA, hlen]
  have hne : prices ≠ [] := by
    intro hnil
    rw [hnil] at hlen
    exact hpos hlen.symm
  obtain ⟨h1, h2⟩ := runSpikeWarmup_spec maWindow cfg bid ask prices []
    (by simpa using hlen) hne
  rw [hma] at h2
  rw [hlen] at h1 h2
  refine ⟨h1, h2, ?_, ?_⟩
  · exact flatMap_pair_length _ _ _
  · intro l hl
    exact flatMap_pair_getElem _ _ cfg.levels l hl

theorem claim_C9_witness :
    ([(1 : ℚ), 3] : List ℚ).length = 2 ∧ (2 : ℕ) ≠ 0 ∧
    ((∀ k, k + 1 < 2 →
      (runSpikeWarmup 2 ⟨"S", 10, 1, 100⟩ 0 2 [] [(1 : ℚ), 3])[k]? = some []) ∧
    ((runSpikeWarmup 2 ⟨"S", 10, 1, 100⟩ 0 2 [] [(1 : ℚ), 3])[1]?
      = some (buildSpikeOrders ⟨"S", 10, 1, 100⟩ (((1 : ℚ) + (3 + 0)) / 2) 0 2)) ∧
    (buildSpikeOrders ⟨"S", 10, 1, 100⟩ (((1 : ℚ) + (3 + 0)) / 2) 0 2).length
      = 2 * 1 ∧
    (∀ l, l < 1 →
      (buildSpikeOrders ⟨"S", 10, 1, 100⟩ (((1 : ℚ) + (3 + 0)) / 2) 0 2)[2 * l]?
        = some ⟨OrderSide.buy,
            toFixed 2 (((1 : ℚ) + (3 + 0)) / 2 * (1 - 10 * ((l : ℚ) + 1) / 100)),
            (getQuantityAndAdjustedTotal
              (toFixed 2 (((1 : ℚ) + (3 + 0)) / 2 * (1 - 10 * ((l : ℚ) + 1) / 100)))
              100 0 2).2, "S"⟩ ∧
      (buildSpikeOrders ⟨"S", 10, 1, 100⟩ (((1 : ℚ) + (3 + 0)) / 2) 0 2)[2 * l + 1]?
        = some ⟨OrderSide.sell,
            toFixed 2 (((1 : ℚ) + (3 + 0)) / 2 * (1 + 10 * ((l : ℚ) + 1) / 100)),
            (getQuantityAndAdjustedTotal
              (toFixed 2 (((1 : ℚ) + (3 + 0)) / 2 * (1 + 10 * ((l : ℚ) + 1) / 100)))
              100 0 2).1, "S"⟩)) := by
  refine ⟨by simp, by norm_num, ?_⟩
  have h := claim_C9_spike_warmup 2 ⟨"S", 10, 1, 100⟩ 0 2 [(1 : ℚ), 3]
    (by simp) (by norm_num)
  simpa using h

end DexBot
